import Mathlib

/-
Verification of the obs_file adapter (LSST-nonproject/obs_file).

The development shallowly embeds the two source files
  python/lsst/obs/file/processFile.py   (ProcessFileTask: run, setVariance, setMask)
  python/lsst/obs/file/argumentParser.py (FileArgumentParser: parse_args, _processDataIds)
as executable Lean definitions.  Pixel values are modelled as rationals,
mask words as natural numbers reduced modulo 2^16 (the afw mask planes are
16-bit unsigned words); external collaborators (afw image I/O, afwMath
statistics, argparse, the Butler) appear as explicit parameters or as
recorded events, never as re-implementations.
-/

set_option autoImplicit false

namespace ObsFile

/-- Configuration of ProcessFileTask (ProcessFileConfig in processFile.py):
a flat record of the numeric/boolean options, with the defaults declared
by the `Field` descriptors. -/
structure Config where
  doCalibrate : Bool
  doVariance : Bool
  doMask : Bool
  gain : ℚ
  noise : ℚ
  saturation : ℚ
  low : ℚ
  isBackgroundSubtracted : Bool
deriving DecidableEq, Repr

/-- Default configuration values from the Field declarations in
ProcessFileConfig: doCalibrate=True, doVariance=False, doMask=False,
gain=0, noise=1, saturation=65535, low=0, isBackgroundSubtracted=False. -/
def defaultConfig : Config :=
  { doCalibrate := true
    doVariance := false
    doMask := false
    gain := 0
    noise := 1
    saturation := 65535
    low := 0
    isBackgroundSubtracted := false }

/-- An exposure: three co-registered pixel planes (intensity, mask,
variance) plus optional WCS metadata.  Planes are flattened to lists of
pixels; the WCS is an abstract token (its content is never inspected by
this code, only its presence). -/
structure Exposure where
  image : List ℚ
  mask : List Nat
  variance : List ℚ
  wcs : Option Nat
deriving DecidableEq, Repr

/-- Co-registration of the three planes of an exposure: the mask and
variance arrays have the same number of pixels as the intensity array. -/
def wellFormed (e : Exposure) : Prop :=
  e.mask.length = e.image.length ∧ e.variance.length = e.image.length

instance (e : Exposure) : Decidable (wellFormed e) := by
  unfold wellFormed; infer_instance

/-- Bit value of the BAD mask plane.  afwImage.MaskU.getPlaneBitMask is
external to this repository; the default afw plane order assigns BAD,
SAT, INTRP, CR, EDGE to bits 0..4, so the named planes used here get the
single-bit values below.  Only distinctness of the bits matters to the
claims. -/
def bitBAD : Nat := 1

/-- Bit value of the SAT mask plane (bit 1). -/
def bitSAT : Nat := 2

/-- Bit value of the INTRP mask plane (bit 2). -/
def bitINTRP : Nat := 4

/-- Bit value of the EDGE mask plane (bit 4; bit 3 is the CR plane,
which is not in the retained set). -/
def bitEDGE : Nat := 16

/-- getPlaneBitMask(["SAT", "INTRP", "BAD", "EDGE"]): bitwise OR of the
four retained planes, the value ANDed into the mask right after load. -/
def retainedBits : Nat := bitSAT ||| bitINTRP ||| bitBAD ||| bitEDGE

/-- The afw mask planes are 16-bit unsigned words, so the numpy `+=` in
setMask wraps modulo 2^16. -/
def maskWordMod : Nat := 65536

/-- ProcessFileTask.setMask (processFile.py lines 148-156):
isLow = image < low; isSat = image > saturation;
mask += where(isLow, BAD, 0); mask += where(isSat, SAT, 0).
The increments are numpy integer additions on the 16-bit mask words. -/
def setMask (cfg : Config) (e : Exposure) : Exposure :=
  let lowAdd := e.image.map fun p => if p < cfg.low then bitBAD else 0
  let satAdd := e.image.map fun p => if p > cfg.saturation then bitSAT else 0
  let m1 := List.zipWith (fun m a => (m + a) % maskWordMod) e.mask lowAdd
  let m2 := List.zipWith (fun m a => (m + a) % maskWordMod) m1 satAdd
  { e with mask := m2 }

/-- Modelled from the spec: the Mask Synthesizer as the specification
states it, with the BAD and SAT contributions OR-combined into whatever
mask bits the pixel already carries. -/
def setMaskSpec (cfg : Config) (e : Exposure) : Exposure :=
  { e with
    mask := List.zipWith
      (fun m p =>
        (m ||| (if p < cfg.low then bitBAD else 0))
          ||| (if p > cfg.saturation then bitSAT else 0))
      e.mask e.image }

/-- The scalar base variance of ProcessFileTask.setVariance: the
VARIANCECLIP statistic of the intensity plane when the input is already
background subtracted, else noise squared.  The clipped-variance
statistic is computed by the external afwMath.makeStatistics and is
passed in as the function `clipVar`. -/
def bkgdVariance (cfg : Config) (clipVar : List ℚ → ℚ) (img : List ℚ) : ℚ :=
  if cfg.isBackgroundSubtracted then clipVar img else cfg.noise ^ 2

/-- ProcessFileTask.setVariance (processFile.py lines 131-146):
variance[:] = bkgdVariance; then, only when gain > 0,
variance += image / gain. -/
def setVariance (cfg : Config) (clipVar : List ℚ → ℚ) (e : Exposure) : Exposure :=
  let b := bkgdVariance cfg clipVar e.image
  let v := e.variance.map fun _ => b
  if cfg.gain > 0 then
    { e with variance := List.zipWith (fun vv p => vv + p / cfg.gain) v e.image }
  else
    { e with variance := v }

/-- Modelled from the spec: Variant A of the Variance Synthesizer, read
off the specification text — every pixel is set to noise squared (or to
the clipped-variance statistic when background subtracted), and when
gain > 0 the pixel's intensity divided by gain is added on top. -/
def setVarianceSpecA (cfg : Config) (clipVar : List ℚ → ℚ) (e : Exposure) : Exposure :=
  let base := if cfg.isBackgroundSubtracted then clipVar e.image else cfg.noise ^ 2
  { e with
    variance := List.zipWith
      (fun p _ => base + (if cfg.gain > 0 then p / cfg.gain else 0))
      e.image e.variance }

/-- Division instrumented against a zero divisor: `none` records that a
division by zero would have been executed. -/
def safeDiv (a b : ℚ) : Option ℚ :=
  if b = 0 then none else some (a / b)

/-- Sequence a list of optional pixels; `none` as soon as any pixel
computation failed. -/
def seqOpt : List (Option ℚ) → Option (List ℚ)
  | [] => some []
  | none :: _ => none
  | some x :: rest => (seqOpt rest).map (fun l => x :: l)

/-- setVariance with every division routed through `safeDiv`: the result
is `none` exactly when the computation would divide by zero. -/
def setVarianceSafe (cfg : Config) (clipVar : List ℚ → ℚ) (e : Exposure) :
    Option Exposure :=
  let b := bkgdVariance cfg clipVar e.image
  let v := e.variance.map fun _ => b
  if cfg.gain > 0 then
    (seqOpt (List.zipWith (fun vv p => (safeDiv p cfg.gain).map (fun q => vv + q)) v e.image)).map
      (fun newVar => { e with variance := newVar })
  else
    some { e with variance := v }

/-- Errors a loader call can raise.  `cppException etype` is an
LsstCppException whose wrapped C++ exception has type string `etype`
(processFile.py inspects e.args[0].getType()); `otherError` stands for
any exception of a different Python class, which the `try` block in
ProcessFileTask.run does not catch. -/
inductive LoadErr where
  | cppException (etype : String)
  | otherError (tag : String)
deriving DecidableEq, Repr

/-- Observable events of one ProcessFileTask.run invocation. -/
inductive LoadEvent where
  | fallbackUsed
  | warnNoWcs
  | delegated
deriving DecidableEq, Repr

/-- The C++ exception type string that selects the fallback path
(processFile.py line 105). -/
def fitsErrorType : String := "lsst::afw::fits::FitsError *"

/-- Environment of one run: the outcome of the primary
afwImage.ExposureF constructor on the resolved input file, the planes
the fallback afwImage.MaskedImageF read would produce from the same
file, the WCS (if any) that afwImage.makeWcs recovers from the header
read alongside it, and the external VARIANCECLIP statistic. -/
structure RunEnv where
  primary : Except LoadErr Exposure
  fallbackPlanes : Exposure
  mdWcs : Option Nat
  clipVar : List ℚ → ℚ

/-- The load phase of ProcessFileTask.run (processFile.py lines
101-118): try ExposureF; on an LsstCppException whose type is the FITS
format error, re-read the file as a MaskedImageF with its header, wrap
it in an exposure (makeExposure yields no WCS), attach the header WCS if
one was found and otherwise only warn; re-raise every other error. -/
def loadExposure (env : RunEnv) : List LoadEvent × Except LoadErr Exposure :=
  match env.primary with
  | .ok e => ([], .ok e)
  | .error (.cppException etype) =>
    if etype = fitsErrorType then
      let base : Exposure := { env.fallbackPlanes with wcs := none }
      match env.mdWcs with
      | some w => ([.fallbackUsed], .ok { base with wcs := some w })
      | none => ([.fallbackUsed, .warnNoWcs], .ok base)
    else
      ([], .error (.cppException etype))
  | .error e => ([], .error e)

/-- The unconditional mask reset of processFile.py lines 120-121:
mask[:] &= getPlaneBitMask(["SAT", "INTRP", "BAD", "EDGE"]). -/
def resetMask (e : Exposure) : Exposure :=
  { e with mask := e.mask.map fun m => m &&& retainedBits }

/-- ProcessFileTask.run after the input-file resolution: load (with
fallback), reset the mask to the retained planes, optionally synthesize
variance and mask, then delegate the prepared exposure to the external
ProcessImageTask.process.  The returned exposure is the one handed to
the delegate. -/
def runTask (env : RunEnv) (cfg : Config) : List LoadEvent × Except LoadErr Exposure :=
  match loadExposure env with
  | (evts, .error err) => (evts, .error err)
  | (evts, .ok e) =>
    let e1 := resetMask e
    let e2 := if cfg.doVariance then setVariance cfg env.clipVar e1 else e1
    let e3 := if cfg.doMask then setMask cfg e2 else e2
    (evts ++ [.delegated], .ok e3)

/-
String utilities shared by the argument-parser embedding.  They model
the posixpath primitives os.path.split and os.path.splitext used by
argumentParser.py, working on the character list of a string.
-/

/-- Split a character list at its last slash: the first component keeps
everything up to and including the last '/', the second is the basename
after it.  Without a slash the first component is empty. -/
def splitAtLastSlash (cs : List Char) : List Char × List Char :=
  let r := cs.reverse
  ((r.dropWhile (fun c => c != '/')).reverse, (r.takeWhile (fun c => c != '/')).reverse)

/-- os.path.split for POSIX paths: split at the final slash and strip
trailing slashes from the head unless the head is all slashes. -/
def ospathSplit (s : String) : String × String :=
  let h := (splitAtLastSlash s.toList).1
  let t := (splitAtLastSlash s.toList).2
  let h' := if h.any (fun c => c != '/') then (h.reverse.dropWhile (fun c => c = '/')).reverse else h
  (String.mk h', String.mk t)

/-- os.path.splitext on a character list: the extension starts at the
last dot, provided that dot lies in the basename and some character of
the basename before it is not itself a dot (leading dots do not begin an
extension). -/
def splitextL (cs : List Char) : List Char × List Char :=
  let h := (splitAtLastSlash cs).1
  let b := (splitAtLastSlash cs).2
  let e := (b.reverse.takeWhile (fun c => c != '.')).reverse
  if e.length = b.length then (cs, [])
  else
    let j := b.length - e.length - 1
    if (b.take j).any (fun c => c != '.') then (h ++ b.take j, b.drop j)
    else (cs, [])

/-- os.path.splitext lifted to strings. -/
def splitext (s : String) : String × String :=
  (String.mk (splitextL s.toList).1, String.mk (splitextL s.toList).2)

/-- The FITS-family extensions recognized by
FileArgumentParser._processDataIds. -/
def fitsExts : List String := [".fits", ".fit", ".fts"]

/-- One application of the extension strip of _processDataIds: replace
the identifier by the splitext root when the extension is one of the
FITS family, otherwise leave it unchanged. -/
def stripFitsExt (s : String) : String :=
  if (splitext s).2 ∈ fitsExts then (splitext s).1 else s

/-- The per-entry transformation of FileArgumentParser._processDataIds
(argumentParser.py lines 180-185): for a data-id entry whose key is
"calexp" and whose value is truthy (non-empty), strip a known FITS
extension from the value. -/
def processIdEntry (kv : String × String) : String × String :=
  if kv.1 = "calexp" ∧ kv.2 ≠ "" then
    (if (splitext kv.2).2 ∈ fitsExts then (kv.1, (splitext kv.2).1) else kv)
  else kv

/-
Embedding of FileArgumentParser.parse_args (argumentParser.py).  The
filesystem is a read-only snapshot of two predicates, path normalization
(_fixPath of the external lsst.pipe.base.argumentParser) is modelled as
the identity on the already-normalized paths the theorems use, argparse
flag scanning is modelled by a last-wins scanner over the CLI surface
declared by the parser, and side effects that matter to the claims
(shutil.rmtree, Butler construction, the --show outputs) are recorded as
events in order. -/

/-- Filesystem snapshot consulted by parse_args. -/
structure Env where
  pathExists : String → Bool
  isDir : String → Bool

/-- Modelled from the spec: _fixPath of the external
lsst.pipe.base.argumentParser normalizes a path (default-name expansion
and abspath); on the absolute, already-normal paths appearing in the
theorems it is the identity, which is how it is abstracted here. -/
def fixPath (s : String) : String := s

/-- _fixPath applied to an optional CLI value: an absent value stays
absent, a present one is normalized by `fixPath`. -/
def fixPathOpt : Option String → Option String
  | none => none
  | some s => some (fixPath s)

/-- Errors through which parse_args aborts (self.exit / self.error both
terminate the process with a non-zero status). -/
inductive PErr where
  | usageNoInput
  | inputNotFound
  | inputNotDir
  | unknownArgument (a : String)
  | missingValue (flag : String)
  | badIdValue (v : String)
  | clobberWithoutOutput
  | clobberOutputEqInput
  | badLogLevel
deriving DecidableEq, Repr

/-- Ordered observable events of parse_args. -/
inductive PEvent where
  | rmtree (path : String)
  | showConfig
  | butlerConstructed
  | showData
  | configFrozen
deriving DecidableEq, Repr

/-- Values collected by the argparse pass over the flags declared by
FileArgumentParser / its pipe_base base parser. -/
structure Opts where
  idList : List (String × String)
  calib : Option String
  outputPath : Option String
  clobberOutput : Bool
  showList : List String
  debug : Bool
  logdest : Option String
  loglevel : Option String
deriving DecidableEq, Repr

/-- Scanner state before any flag is seen. -/
def initOpts : Opts :=
  { idList := []
    calib := none
    outputPath := none
    clobberOutput := false
    showList := []
    debug := false
    logdest := none
    loglevel := none }

/-- Split a `key=value` token of an --id argument at its first '='. -/
def splitKeyVal (s : String) : Option (String × String) :=
  if (s.toList.takeWhile (fun c => c != '=')).length = s.toList.length then none
  else
    some (String.mk (s.toList.takeWhile (fun c => c != '=')),
      String.mk (s.toList.drop ((s.toList.takeWhile (fun c => c != '=')).length + 1)))

/-- Left-to-right scan of the flag portion of the argument list; for the
scalar options a later occurrence overwrites an earlier one, --id and
--show accumulate, and an unknown token or a flag without its value is
an argparse error. -/
def scanAux (acc : Opts) : List String → Except PErr Opts
  | [] => .ok acc
  | "--id" :: v :: rest =>
    match splitKeyVal v with
    | some kv => scanAux { acc with idList := acc.idList ++ [kv] } rest
    | none => .error (.badIdValue v)
  | "--calib" :: v :: rest => scanAux { acc with calib := some v } rest
  | "--output" :: v :: rest => scanAux { acc with outputPath := some v } rest
  | "--show" :: v :: rest => scanAux { acc with showList := acc.showList ++ [v] } rest
  | "--logdest" :: v :: rest => scanAux { acc with logdest := some v } rest
  | "--loglevel" :: v :: rest => scanAux { acc with loglevel := some v } rest
  | "--clobber-output" :: rest => scanAux { acc with clobberOutput := true } rest
  | "--debug" :: rest => scanAux { acc with debug := true } rest
  | [a] =>
    if a = "--id" ∨ a = "--calib" ∨ a = "--output" ∨ a = "--show" ∨
        a = "--logdest" ∨ a = "--loglevel" then
      .error (.missingValue a)
    else .error (.unknownArgument a)
  | a :: _ => .error (.unknownArgument a)

/-- argparse parsing of everything after the positional input path. -/
def scanArgs (args : List String) : Except PErr Opts :=
  scanAux initOpts args

/-- Does the first positional argument look like a flag
(args[0].startswith("-") or args[0].startswith("@"))? -/
def headIsFlagChar (s : String) : Bool :=
  match s.toList with
  | [] => false
  | c :: _ => c = '-' ∨ c = '@'

/-- The input-resolution prologue of parse_args (argumentParser.py lines
74-86): require a non-flag first argument, normalize it, require it to
exist; when it is not a directory, split it into (directory, filename)
and splice `directory --id calexp=filename` in place of the first
argument; finally require the (possibly replaced) input root to be a
directory.  Returns the input root together with the rewritten argument
list. -/
def resolveInput (env : Env) (args : List String) : Except PErr (String × List String) :=
  match args with
  | [] => .error .usageNoInput
  | a0 :: rest =>
    if headIsFlagChar a0 then .error .usageNoInput
    else
      let inputRoot := fixPath a0
      if ¬ env.pathExists inputRoot then .error .inputNotFound
      else if ¬ env.isDir inputRoot then
        let d := (ospathSplit inputRoot).1
        let f := (ospathSplit inputRoot).2
        if ¬ env.isDir d then .error .inputNotDir
        else .ok (d, d :: "--id" :: ("calexp=" ++ f) :: rest)
      else .ok (inputRoot, a0 :: rest)

/-- ASCII upper-casing of namespace.loglevel.upper(). -/
def strUpper (s : String) : String :=
  String.mk (s.toList.map Char.toUpper)

/-- Decimal digits to a number; `none` when the list is empty or holds a
non-digit. -/
def digitsToNat? (l : List Char) : Option Nat :=
  if l.isEmpty ∨ ¬ l.all (fun c => c.isDigit) then none
  else some (l.foldl (fun acc c => 10 * acc + (c.toNat - 48)) 0)

/-- Python's int(str): optional surrounding spaces, an optional sign,
then decimal digits; anything else raises ValueError (`none`). -/
def strToInt? (s : String) : Option Int :=
  let cs := (s.toList.dropWhile (fun c => c = ' ')).reverse.dropWhile (fun c => c = ' ') |>.reverse
  match cs with
  | '-' :: ds => (digitsToNat? ds).map (fun n => -(n : Int))
  | '+' :: ds => (digitsToNat? ds).map (fun n => (n : Int))
  | ds => (digitsToNat? ds).map (fun n => (n : Int))

/-- The named log levels accepted by the --loglevel validation. -/
def permittedLevels : List String := ["DEBUG", "INFO", "WARN", "FATAL"]

/-- A --loglevel value passes validation when its upper-casing is a
named level or when it parses as an integer threshold. -/
def logLevelOk (s : String) : Bool :=
  strUpper s ∈ permittedLevels ∨ (strToInt? s).isSome

/-- The resolved namespace fields the claims speak about. -/
structure NS where
  input : String
  calib : Option String
  outputPath : Option String
  dataIdList : List (String × String)
  clobberOutput : Bool
  showList : List String
deriving DecidableEq, Repr

/-- Outcome of parse_args: a resolved namespace, the sys.exit(0) early
exit of --show exit, or a fatal argument error. -/
inductive POutcome where
  | ok (ns : NS)
  | earlyExit
  | fail (e : PErr)
deriving DecidableEq, Repr

/-- FileArgumentParser.parse_args (argumentParser.py lines 46-173),
after the prologue `resolveInput` and the argparse scan: re-check that
the input is a directory, normalize calib/output, run the
clobber-output guard (erroring before any removal when output is unset
or equals input, otherwise removing an existing output tree), emit the
--show config output, construct the Butler, strip FITS extensions from
the calexp data ids, emit the --show data output, honor --show exit,
validate a truthy --loglevel (fatal argparse error when it is neither a
named level nor an integer), and finally validate and freeze the
configuration. -/
def parseArgs (env : Env) (args : List String) : List PEvent × POutcome :=
  match resolveInput env args with
  | .error e => ([], .fail e)
  | .ok (_, args2) =>
    match scanArgs (args2.drop 1) with
    | .error e => ([], .fail e)
    | .ok opts =>
      let input := fixPath (args2.headD "")
      if ¬ env.isDir input then ([], .fail .inputNotFound)
      else
        let calib := fixPathOpt opts.calib
        let outputPath := fixPathOpt opts.outputPath
        if opts.clobberOutput ∧ outputPath = none then
          ([], .fail .clobberWithoutOutput)
        else if opts.clobberOutput ∧ outputPath = some input then
          ([], .fail .clobberOutputEqInput)
        else
          let ev1 :=
            if opts.clobberOutput then
              match outputPath with
              | some p => if env.pathExists p then [PEvent.rmtree p] else []
              | none => []
            else []
          let ev2 := ev1 ++ (if "config" ∈ opts.showList then [PEvent.showConfig] else [])
          let ev3 := ev2 ++ [PEvent.butlerConstructed]
          let ids := opts.idList.map processIdEntry
          let ev4 := ev3 ++ (if "data" ∈ opts.showList then [PEvent.showData] else [])
          if "exit" ∈ opts.showList then (ev4, .earlyExit)
          else
            let finish : List PEvent × POutcome :=
              (ev4 ++ [PEvent.configFrozen],
               .ok { input := input
                     calib := calib
                     outputPath := outputPath
                     dataIdList := ids
                     clobberOutput := opts.clobberOutput
                     showList := opts.showList })
            match opts.loglevel with
            | some s =>
              if s = "" then finish
              else if logLevelOk s then finish
              else (ev4, .fail .badLogLevel)
            | none => finish

/-
Concrete inputs used by witnesses and counterexamples.
-/

/-- Filesystem snapshot holding a single repository directory "/in". -/
def envDirIn : Env :=
  { pathExists := fun s => s == "/in", isDir := fun s => s == "/in" }

/-- Filesystem snapshot of the specification's example: the file
/data/run1/img007.fits inside the directory /data/run1. -/
def envRun1 : Env :=
  { pathExists := fun s => s == "/data/run1/img007.fits" || s == "/data/run1"
    isDir := fun s => s == "/data/run1" }

/-- One-pixel exposure whose mask already carries the BAD bit (which
survives the initial reset) and whose intensity lies below the default
low threshold. -/
def expBadLow : Exposure :=
  { image := [-1], mask := [bitBAD], variance := [0], wcs := none }

/-- A small concrete two-pixel exposure. -/
def expSmall : Exposure :=
  { image := [3, -2], mask := [0, 65535], variance := [5, 7], wcs := none }

/-- Run environment whose primary load succeeds with `expSmall`. -/
def envPrimaryOk : RunEnv :=
  { primary := .ok expSmall
    fallbackPlanes := expSmall
    mdWcs := none
    clipVar := fun _ => 0 }

/-- Run environment whose primary load fails with the FITS format error
and whose header carries no WCS. -/
def envFitsFail : RunEnv :=
  { primary := .error (.cppException fitsErrorType)
    fallbackPlanes := expSmall
    mdWcs := none
    clipVar := fun _ => 0 }

/-
Helper lemmas.
-/

lemma zipWith_map_const_left (b g : ℚ) :
    ∀ (img var : List ℚ), var.length = img.length →
      List.zipWith (fun vv p => vv + p / g) (var.map fun _ => b) img
        = List.zipWith (fun p _ => b + p / g) img var := by
  intro img
  induction img with
  | nil => intro var h; simp
  | cons p ps ih =>
    intro var h
    cases var with
    | nil => simp at h
    | cons v vs =>
      simp only [List.map_cons, List.zipWith_cons_cons, List.cons.injEq]
      exact ⟨trivial, ih vs (by simpa using h)⟩

lemma map_const_eq_zipWith (b : ℚ) :
    ∀ (img var : List ℚ), var.length = img.length →
      var.map (fun _ => b) = List.zipWith (fun _ _ => b) img var := by
  intro img
  induction img with
  | nil => intro var h; simp [List.length_eq_zero.mp h]
  | cons p ps ih =>
    intro var h
    cases var with
    | nil => simp at h
    | cons v vs =>
      simp only [List.map_cons, List.zipWith_cons_cons, List.cons.injEq]
      exact ⟨trivial, ih vs (by simpa using h)⟩

/-
Claim theorems.
-/

/-- C1: the claim states that the mask after setMask is the bitwise OR
of the surviving bits with BAD at low pixels and SAT at saturated
pixels.  The code instead performs numpy integer addition (`mask +=`):
on a pixel whose intensity is below `low` and whose mask already carries
the BAD bit — a bit the initial reset deliberately retains — the
addition carries into the SAT plane, producing mask word 2 (SAT set,
BAD cleared) where the OR-combination of the claim yields 1 (BAD kept).
This evaluates both the embedded code and the claim's OR formulation at
that failing input. -/
theorem setMask_addition_breaks_or_spec :
    (setMask defaultConfig expBadLow).mask = [bitSAT] ∧
    (setMaskSpec defaultConfig expBadLow).mask = [bitBAD] ∧
    setMask defaultConfig expBadLow ≠ setMaskSpec defaultConfig expBadLow := by
  decide

/-- C2: for every configuration, clipped-variance statistic and
well-formed exposure, the variance plane produced by setVariance is
exactly Variant A of the specification: every pixel is set to noise
squared (or to the clipped-variance statistic of the intensity plane
when the input is background subtracted), and intensity/gain is added
to every pixel exactly when gain > 0. -/
theorem setVariance_eq_variantA (cfg : Config) (clipVar : List ℚ → ℚ)
    (e : Exposure) (hwf : wellFormed e) :
    setVariance cfg clipVar e = setVarianceSpecA cfg clipVar e := by
  by_cases hg : cfg.gain > 0
  · simp only [setVariance, setVarianceSpecA, bkgdVariance, if_pos hg,
      Exposure.mk.injEq]
    refine ⟨trivial, trivial, ?_, trivial⟩
    exact zipWith_map_const_left _ cfg.gain e.image e.variance hwf.2
  · simp only [setVariance, setVarianceSpecA, bkgdVariance, if_neg hg,
      add_zero, Exposure.mk.injEq]
    refine ⟨trivial, trivial, ?_, trivial⟩
    exact map_const_eq_zipWith _ e.image e.variance hwf.2

/-- Witness for C2: the theorem applied to a concrete well-formed
exposure and a concrete statistic. -/
theorem setVariance_eq_variantA_witness :
    wellFormed expSmall ∧
    setVariance { defaultConfig with gain := 2 } (fun _ => 9) expSmall
      = setVarianceSpecA { defaultConfig with gain := 2 } (fun _ => 9) expSmall :=
  ⟨by decide, setVariance_eq_variantA { defaultConfig with gain := 2 } (fun _ => 9) expSmall (by decide)⟩

/-- C9: with gain = 0 the variance computation never divides by gain:
the instrumented variant, in which every division is guarded against a
zero divisor, succeeds and agrees with the embedded code, and the
resulting plane is the constant base variance with the gain term skipped
entirely. -/
theorem gain_zero_skips_division (cfg : Config) (clipVar : List ℚ → ℚ)
    (e : Exposure) (h : cfg.gain = 0) :
    setVarianceSafe cfg clipVar e = some (setVariance cfg clipVar e) ∧
    (setVariance cfg clipVar e).variance
      = e.variance.map (fun _ => bkgdVariance cfg clipVar e.image) := by
  have hng : ¬ cfg.gain > 0 := by rw [h]; exact lt_irrefl 0
  constructor
  · simp [setVarianceSafe, setVariance, hng]
  · simp [setVariance, hng]

/-- Witness for C9: the default configuration has gain = 0 and the
instrumented computation succeeds on a concrete exposure. -/
theorem gain_zero_skips_division_witness :
    defaultConfig.gain = 0 ∧
    setVarianceSafe defaultConfig (fun _ => 9) expSmall
      = some (setVariance defaultConfig (fun _ => 9) expSmall) :=
  ⟨by decide, (gain_zero_skips_division defaultConfig (fun _ => 9) expSmall (by decide)).1⟩

/-- C10: the variance plane produced by setVariance does not depend on
the prior variance plane: two well-formed exposures that agree on their
intensity planes (in particular, exposures identical up to their prior
variance planes) receive identical variance planes. -/
theorem setVariance_ignores_prior_variance (cfg : Config) (clipVar : List ℚ → ℚ)
    (e₁ e₂ : Exposure) (himg : e₁.image = e₂.image)
    (hwf₁ : wellFormed e₁) (hwf₂ : wellFormed e₂) :
    (setVariance cfg clipVar e₁).variance = (setVariance cfg clipVar e₂).variance := by
  have hlen : e₁.variance.length = e₂.variance.length := by
    rw [hwf₁.2, hwf₂.2, himg]
  by_cases hg : cfg.gain > 0 <;>
    simp [setVariance, hg, himg, List.map_const', hlen]

/-- Witness for C10: two concrete exposures differing only in their
variance planes produce the same variance plane. -/
theorem setVariance_ignores_prior_variance_witness :
    (setVariance { defaultConfig with gain := 4 } (fun _ => 9)
        { expSmall with variance := [100, 200] }).variance
      = (setVariance { defaultConfig with gain := 4 } (fun _ => 9) expSmall).variance :=
  setVariance_ignores_prior_variance { defaultConfig with gain := 4 } (fun _ => 9)
    { expSmall with variance := [100, 200] } expSmall (by decide) (by decide) (by decide)

/-- C6: the fallback loading path (masked image plus separate header) is
taken exactly when the primary loader fails with the FITS format-error
condition; any other error of the primary loader propagates unchanged
out of the load and makes the whole run fail; and in the fallback path a
missing header WCS yields a successfully loaded exposure without WCS
together with a warning, never an abort. -/
theorem fallback_iff_fits_error (env : RunEnv) (cfg : Config) :
    (LoadEvent.fallbackUsed ∈ (loadExposure env).1 ↔
      env.primary = .error (.cppException fitsErrorType)) ∧
    (∀ err : LoadErr, env.primary = .error err → err ≠ .cppException fitsErrorType →
      loadExposure env = ([], .error err) ∧ (runTask env cfg).2 = .error err) ∧
    (env.primary = .error (.cppException fitsErrorType) → env.mdWcs = none →
      loadExposure env
        = ([.fallbackUsed, .warnNoWcs], .ok { env.fallbackPlanes with wcs := none })) := by
  obtain ⟨prim, fb, md, cv⟩ := env
  cases prim with
  | ok e =>
    refine ⟨by simp [loadExposure], ?_, by simp⟩
    intro err herr
    simp at herr
  | error err =>
    cases err with
    | cppException t =>
      by_cases ht : t = fitsErrorType
      · subst ht
        cases md with
        | none =>
          refine ⟨by simp [loadExposure], ?_, by intro _ _; simp [loadExposure]⟩
          intro err herr hne
          simp only [Except.error.injEq] at herr
          exact absurd herr.symm hne
        | some w =>
          refine ⟨by simp [loadExposure], ?_, by intro _ h; simp at h⟩
          intro err herr hne
          simp only [Except.error.injEq] at herr
          exact absurd herr.symm hne
      · refine ⟨by simp [loadExposure, ht], ?_, by intro h; simp [ht] at h⟩
        intro err herr _
        simp only [Except.error.injEq] at herr
        subst herr
        exact ⟨by simp [loadExposure, ht], by simp [runTask, loadExposure, ht]⟩
    | otherError t =>
      refine ⟨by simp [loadExposure], ?_, by intro h; simp at h⟩
      intro err herr _
      simp only [Except.error.injEq] at herr
      subst herr
      exact ⟨by simp [loadExposure], by simp [runTask, loadExposure]⟩

/-- Witness for C6: a primary FITS format error with a WCS-less header
falls back and only warns. -/
theorem fallback_iff_fits_error_witness :
    loadExposure envFitsFail
      = ([.fallbackUsed, .warnNoWcs], .ok { expSmall with wcs := none }) :=
  (fallback_iff_fits_error envFitsFail defaultConfig).2.2 rfl rfl

/-- C7: whichever load path succeeded, the exposure is passed through
the mask reset before the optional variance step, the optional mask step
and the delegation, and the reset keeps exactly the bits of the
retained set {SAT, INTRP, BAD, EDGE} (bit positions 1, 2, 0 and 4): on
every pixel, a bit of the reset mask is the conjunction of the original
bit with the retained-set bit, and the retained set holds the bit
positions 0, 1, 2 and 4 and no others. -/
theorem mask_reset_after_load (env : RunEnv) (cfg : Config) (e : Exposure)
    (h : (loadExposure env).2 = .ok e) :
    (runTask env cfg).2 =
      .ok ((fun x => if cfg.doMask then setMask cfg x else x)
            ((fun x => if cfg.doVariance then setVariance cfg env.clipVar x else x)
              (resetMask e))) ∧
    (∀ i k : Nat,
      Nat.testBit ((resetMask e).mask.getD i 0) k
        = (Nat.testBit (e.mask.getD i 0) k && Nat.testBit retainedBits k)) ∧
    (∀ k : Nat, Nat.testBit retainedBits k = true ↔ (k = 0 ∨ k = 1 ∨ k = 2 ∨ k = 4)) := by
  refine ⟨?_, ?_, ?_⟩
  · obtain ⟨evts, hpair⟩ : ∃ evts, loadExposure env = (evts, Except.ok e) :=
      ⟨(loadExposure env).1, by rw [← h]⟩
    simp [runTask, hpair]
  · have hgd : ∀ (l : List Nat) (i : Nat),
        (l.map fun m => m &&& retainedBits).getD i 0 = (l.getD i 0) &&& retainedBits := by
      intro l
      induction l with
      | nil => intro i; simp [List.getD]
      | cons a t ih =>
        intro i
        cases i with
        | zero => simp [List.getD]
        | succ n => simpa [List.getD] using ih n
    intro i k
    simp only [resetMask, hgd, Nat.testBit_land]
  · intro k
    match k with
    | 0 => decide
    | 1 => decide
    | 2 => decide
    | 3 => decide
    | 4 => decide
    | (n + 5) =>
      have h23 : retainedBits < 2 ^ (n + 5) := by
        have h1 : retainedBits = 23 := by decide
        have h2 : (2 : Nat) ^ 5 ≤ 2 ^ (n + 5) :=
          Nat.pow_le_pow_right (by norm_num) (by omega)
        omega
      simp [Nat.testBit_lt_two_pow h23]

/-- Witness for C7: the theorem applied to a run whose primary load
succeeds with a concrete exposure; bit 3 (the CR plane, outside the
retained set) is ANDed away on the second pixel. -/
theorem mask_reset_after_load_witness :
    (runTask envPrimaryOk defaultConfig).2 = .ok (resetMask expSmall) ∧
    Nat.testBit ((resetMask expSmall).mask.getD 1 0) 3
      = (Nat.testBit (expSmall.mask.getD 1 0) 3 && Nat.testBit retainedBits 3) := by
  have h := mask_reset_after_load envPrimaryOk defaultConfig expSmall rfl
  exact ⟨h.1, h.2.1 1 3⟩

lemma splitAtLastSlash_append (cs : List Char) :
    (splitAtLastSlash cs).1 ++ (splitAtLastSlash cs).2 = cs := by
  simp only [splitAtLastSlash]
  rw [← List.reverse_append, List.takeWhile_append_dropWhile, List.reverse_reverse]

lemma splitextL_append (cs : List Char) :
    (splitextL cs).1 ++ (splitextL cs).2 = cs := by
  simp only [splitextL]
  split
  · simp
  · split
    · rw [List.append_assoc, List.take_append_drop, splitAtLastSlash_append]
    · simp

lemma splitext_append (s : String) : (splitext s).1 ++ (splitext s).2 = s := by
  cases s with
  | mk l =>
    show String.mk ((splitextL l).1 ++ (splitextL l).2) = String.mk l
    rw [splitextL_append]

lemma stripFitsExt_fixed_iff (y : String) :
    stripFitsExt y = y ↔ (splitext y).2 ∉ fitsExts := by
  constructor
  · intro h hmem
    have h1 : stripFitsExt y = (splitext y).1 := by simp [stripFitsExt, hmem]
    have h2 := splitext_append y
    rw [h1] at h
    rw [h] at h2
    have hdata : y.data ++ (splitext y).2.data = y.data ++ [] := by
      have := congrArg String.data h2
      simpa [String.data_append] using this
    have hnil : (splitext y).2.data = [] := List.append_cancel_left hdata
    have hempty : (splitext y).2 = "" := congrArg String.mk hnil
    rw [hempty] at hmem
    simp [fitsExts] at hmem
  · intro h
    simp [stripFitsExt, h]

/-- C4 counterexample: stripping a known FITS extension is not
idempotent on an identifier with stacked extensions — a second strip of
"img.fits.fits" removes a second extension. -/
theorem stripFitsExt_not_idempotent_counterexample :
    stripFitsExt "img.fits.fits" = "img.fits" ∧
    stripFitsExt (stripFitsExt "img.fits.fits") = "img" ∧
    stripFitsExt (stripFitsExt "img.fits.fits") ≠ stripFitsExt "img.fits.fits" := by
  decide

/-- C4 amended: one application of the strip removes exactly one known
FITS-family extension, so a second application leaves the result
unchanged precisely when the once-stripped identifier does not itself
end in a known FITS-family extension (in particular for every
identifier carrying at most one such extension); identifiers with
stacked extensions are not fixed points of the strip. -/
theorem stripFitsExt_idempotent_iff (s : String) :
    stripFitsExt (stripFitsExt s) = stripFitsExt s ↔
      (splitext (stripFitsExt s)).2 ∉ fitsExts :=
  stripFitsExt_fixed_iff (stripFitsExt s)

lemma splitKeyVal_calexp (f : String) :
    splitKeyVal ("calexp=" ++ f) = some ("calexp", f) := by
  obtain ⟨l⟩ := f
  have hlist : ("calexp=" ++ String.mk l).toList
      = 'c' :: 'a' :: 'l' :: 'e' :: 'x' :: 'p' :: '=' :: l := rfl
  have ht : List.takeWhile (fun c => c != '=')
      ('c' :: 'a' :: 'l' :: 'e' :: 'x' :: 'p' :: '=' :: l)
      = ['c', 'a', 'l', 'e', 'x', 'p'] := rfl
  have hne : ¬ ((['c', 'a', 'l', 'e', 'x', 'p'] : List Char).length
      = ('c' :: 'a' :: 'l' :: 'e' :: 'x' :: 'p' :: '=' :: l).length) := by
    simp only [List.length_cons, List.length_nil]
    omega
  simp only [splitKeyVal, hlist, ht, if_neg hne]
  rfl

lemma scanArgs_single_id (v k val : String) (h : splitKeyVal v = some (k, val)) :
    scanArgs ["--id", v] = .ok { initOpts with idList := [(k, val)] } := by
  simp [scanArgs, scanAux, h, initOpts]

/-- C3 counterexample: on the concrete invocation
`/in --loglevel bogus` (with `/in` an existing repository directory) the
resolver does fail fatally on the invalid log level, but the event trace
of the very same invocation contains the Butler construction — the
failure does not occur before repository/Butler construction, refuting
the claim as stated. -/
theorem badLogLevel_after_butler_counterexample :
    (parseArgs envDirIn ["/in", "--loglevel", "bogus"]).2 = .fail .badLogLevel ∧
    PEvent.butlerConstructed ∈ (parseArgs envDirIn ["/in", "--loglevel", "bogus"]).1 := by
  decide

/-- C3 amended: an argument list whose --loglevel value is non-empty and
neither a named level (after upper-casing) nor an integer makes the
resolver fail fatally at argument-resolution time, provided resolution
reaches the log-level check (the input resolves, the flags scan, the
clobber guard passes and --show exit is absent) — but this failure
happens only after the repository/Butler construction, which always
precedes the log-level validation. -/
theorem badLogLevel_fatal_after_butler (env : Env) (args args2 : List String)
    (root s : String) (opts : Opts)
    (h1 : resolveInput env args = .ok (root, args2))
    (h2 : scanArgs (args2.drop 1) = .ok opts)
    (h3 : env.isDir (fixPath (args2.headD "")) = true)
    (h4 : opts.clobberOutput = true →
      fixPathOpt opts.outputPath ≠ none ∧
      fixPathOpt opts.outputPath ≠ some (fixPath (args2.headD "")))
    (h5 : "exit" ∉ opts.showList)
    (h6 : opts.loglevel = some s)
    (h7 : s ≠ "")
    (h8 : logLevelOk s = false) :
    (parseArgs env args).2 = .fail .badLogLevel ∧
    PEvent.butlerConstructed ∈ (parseArgs env args).1 := by
  simp only [List.drop_one] at h2
  simp only [List.headD_eq_head?] at h3 h4
  by_cases hcl : opts.clobberOutput
  · obtain ⟨hnn, hne⟩ := h4 hcl
    obtain ⟨q, hq⟩ := Option.ne_none_iff_exists'.mp hnn
    have hq2 : ¬ (q = fixPath (args2.head?.getD "")) := by
      intro hh
      exact hne (by rw [hq, hh])
    by_cases hex : env.pathExists q <;>
      simp [parseArgs, h1, h2, h3, hcl, hq, hq2, h5, h6, h7, h8, hex]
  · simp [parseArgs, h1, h2, h3, hcl, h5, h6, h7, h8]

/-- Witness for the amended C3 on a concrete invocation with the invalid
log level `xyz`. -/
theorem badLogLevel_fatal_after_butler_witness :
    (parseArgs envDirIn ["/in", "--loglevel", "xyz"]).2 = .fail .badLogLevel ∧
    PEvent.butlerConstructed ∈ (parseArgs envDirIn ["/in", "--loglevel", "xyz"]).1 :=
  badLogLevel_fatal_after_butler envDirIn ["/in", "--loglevel", "xyz"]
    ["/in", "--loglevel", "xyz"] "/in" "xyz"
    { initOpts with loglevel := some "xyz" }
    rfl rfl (by decide) (by decide) (by decide) rfl (by decide) (by decide)

/-- C8: whenever --clobber-output is given and resolution reaches the
clobber guard, an unset resolved output makes parse_args fail with the
clobber-without-output error, and a resolved output equal to the
resolved input makes it fail with the output-equals-input error; in both
cases the event trace is empty, so in particular no directory tree is
removed. -/
theorem clobber_guard_fails_without_deleting (env : Env) (args args2 : List String)
    (root : String) (opts : Opts)
    (h1 : resolveInput env args = .ok (root, args2))
    (h2 : scanArgs (args2.drop 1) = .ok opts)
    (h3 : env.isDir (fixPath (args2.headD "")) = true)
    (hc : opts.clobberOutput = true) :
    (fixPathOpt opts.outputPath = none →
      parseArgs env args = ([], .fail .clobberWithoutOutput) ∧
      ∀ q : String, PEvent.rmtree q ∉ (parseArgs env args).1) ∧
    (fixPathOpt opts.outputPath = some (fixPath (args2.headD "")) →
      parseArgs env args = ([], .fail .clobberOutputEqInput) ∧
      ∀ q : String, PEvent.rmtree q ∉ (parseArgs env args).1) := by
  simp only [List.drop_one] at h2
  simp only [List.headD_eq_head?] at h3 ⊢
  constructor
  · intro hout
    have heq : parseArgs env args = ([], .fail .clobberWithoutOutput) := by
      simp [parseArgs, h1, h2, h3, hc, hout]
    exact ⟨heq, by simp [heq]⟩
  · intro hout
    have heq : parseArgs env args = ([], .fail .clobberOutputEqInput) := by
      simp [parseArgs, h1, h2, h3, hc, hout]
    exact ⟨heq, by simp [heq]⟩

/-- Witness for C8: `--clobber-output` with `--output /in` on input
`/in` fails with the output-equals-input error and removes nothing. -/
theorem clobber_guard_fails_without_deleting_witness :
    parseArgs envDirIn ["/in", "--output", "/in", "--clobber-output"]
      = ([], .fail .clobberOutputEqInput) :=
  ((clobber_guard_fails_without_deleting envDirIn
      ["/in", "--output", "/in", "--clobber-output"]
      ["/in", "--output", "/in", "--clobber-output"] "/in"
      { initOpts with outputPath := some "/in", clobberOutput := true }
      rfl rfl (by decide) rfl).2 rfl).1

/-- C5: when the first positional argument is an existing path that is
not a directory, the resolver splits it into (directory, filename),
makes the directory the input root, splices a synthesized
`--id calexp=<filename>` argument into the argument list, and — once
_processDataIds strips the known FITS extension — the resolved data id
is the basename without its known extension; with no further arguments
the whole resolution yields that single data id under the parent
directory as input root. -/
theorem singleFile_synthesizes_id (env : Env) (p d f : String) (rest : List String)
    (hflag : headIsFlagChar p = false)
    (hex : env.pathExists (fixPath p) = true)
    (hnd : env.isDir (fixPath p) = false)
    (hsplit : ospathSplit (fixPath p) = (d, f))
    (hdir : env.isDir d = true)
    (hf : f ≠ "") :
    resolveInput env (p :: rest) = .ok (d, d :: "--id" :: ("calexp=" ++ f) :: rest) ∧
    processIdEntry ("calexp", f) = ("calexp", stripFitsExt f) ∧
    (rest = [] →
      parseArgs env [p]
        = ([PEvent.butlerConstructed, PEvent.configFrozen],
           .ok { input := d, calib := none, outputPath := none,
                 dataIdList := [("calexp", stripFitsExt f)],
                 clobberOutput := false, showList := [] })) := by
  have hres : resolveInput env (p :: rest)
      = .ok (d, d :: "--id" :: ("calexp=" ++ f) :: rest) := by
    simp [resolveInput, hflag, hex, hnd, hsplit, hdir]
  have hproc : processIdEntry ("calexp", f) = ("calexp", stripFitsExt f) := by
    by_cases he : (splitext f).2 ∈ fitsExts <;>
      simp [processIdEntry, stripFitsExt, hf, he]
  refine ⟨hres, hproc, ?_⟩
  intro hrest
  subst hrest
  have hscan : scanArgs ["--id", "calexp=" ++ f]
      = .ok { initOpts with idList := [("calexp", f)] } :=
    scanArgs_single_id _ _ _ (splitKeyVal_calexp f)
  simp [parseArgs, hres, hscan, hdir, hproc, initOpts, fixPath, fixPathOpt]

/-- Witness for C5: the specification's example — input
/data/run1/img007.fits resolves to input root /data/run1 with data id
calexp=img007. -/
theorem singleFile_synthesizes_id_witness :
    parseArgs envRun1 ["/data/run1/img007.fits"]
      = ([PEvent.butlerConstructed, PEvent.configFrozen],
         .ok { input := "/data/run1", calib := none, outputPath := none,
               dataIdList := [("calexp", "img007")],
               clobberOutput := false, showList := [] }) := by
  have h := singleFile_synthesizes_id envRun1 "/data/run1/img007.fits"
    "/data/run1" "img007.fits" [] rfl rfl rfl (by decide) rfl (by decide)
  have h3 := h.2.2 rfl
  have hs : stripFitsExt "img007.fits" = "img007" := by decide
  rw [hs] at h3
  exact h3

end ObsFile
